import Mathlib

/-!
Verification of the benchmark-sweep pattern of the two benchmark scripts
`bench_loss_module_hgbt.py` and `bench_loss_module_logistic.py`.

The scripts build a lazy sequence of tagged deferred fit calls
(`benchmark_cases`), hand it to the external `neurtu.Benchmark` runner,
post-process the returned tables (extra columns, concatenation) and save
the result once.  The grid generation, the tag construction, the column
additions and the query/write sequences below are translated from the
source; the runner itself is an external library whose contract the spec
describes, so its model is marked `Modelled from the spec`.
-/

namespace Bench

set_option maxRecDepth 8000

/-- A tag value: the scripts put numpy integers, Python bools and strings
into the tag dictionaries and table columns. -/
inductive TagVal where
  | int (i : Int)
  | bool (b : Bool)
  | str (s : String)
deriving DecidableEq

/-- An ordered mapping from column name to value: models the
`OrderedDict` tag sets and the columns later added to the data frames. -/
abbrev Tags := List (String × TagVal)

/-- A scikit-learn estimator instance, abstracted to an identity (which
construction produced it: fresh instances have distinct ids) and its
constructor keyword arguments. -/
structure Estimator where
  id : Int
  params : Tags
deriving DecidableEq

/-- A Timed Unit: `delayed(clf.fit, tags=tags)(X[:N, :], y[:N])` — the
deferred fit call of one estimator on a prefix slice of size `argN`,
together with the tags of its Grid Point. -/
structure TimedUnit where
  tags : Tags
  est : Estimator
  argN : Int
deriving DecidableEq

/-- One row of a benchmark Result Table: the tag columns (grid tags plus
columns added by the script) and the repetition index.  The measured
metric values (wall time, cpu time, peak memory) are environment
dependent and are abstracted away: only their column names appear in the
claims, never their values. -/
structure Measurement where
  tags : Tags
  rep : Nat
deriving DecidableEq

/-! ### Exact-arithmetic models of the numpy calls

The scripts compute the sample-size grid as
`np.logspace(np.log10(n_samples/1e3), np.log10(n_samples), 4).astype(int)`.
All inputs reaching these calls are exact powers of ten, on which IEEE
double `log10` and `10 ** k` are exact, so the exact-fraction model
below agrees with the float computation on every value the scripts
produce.  Fractions are kept unnormalized (plain integer numerator and
denominator); every denominator arising in the script computation is
positive, so cross-multiplication equality is sound. -/

/-- An unnormalized exact fraction. -/
structure Frac where
  num : Int
  den : Int
deriving DecidableEq

/-- Embed an integer as a fraction. -/
def Frac.ofInt (n : Int) : Frac := ⟨n, 1⟩

/-- Fraction addition. -/
def Frac.add (x y : Frac) : Frac := ⟨x.num * y.den + y.num * x.den, x.den * y.den⟩

/-- Fraction subtraction. -/
def Frac.sub (x y : Frac) : Frac := ⟨x.num * y.den - y.num * x.den, x.den * y.den⟩

/-- Fraction multiplication. -/
def Frac.mul (x y : Frac) : Frac := ⟨x.num * y.num, x.den * y.den⟩

/-- Fraction division. -/
def Frac.div (x y : Frac) : Frac := ⟨x.num * y.den, x.den * y.num⟩

/-- Cross-multiplication equality test (sound for positive
denominators, which covers every value the scripts produce). -/
def Frac.beq (x y : Frac) : Bool := x.num * y.den == y.num * x.den

/-- The exact integer value of a fraction, when it has one. -/
def Frac.toInt? (x : Frac) : Option Int :=
  if x.den ≠ 0 ∧ Int.tmod x.num x.den = 0 then some (Int.tdiv x.num x.den) else none

/-- Model of `np.log10`, defined on exact powers of ten (the only inputs
the scripts pass); `none` elsewhere. -/
def np_log10 (x : Frac) : Option Frac :=
  ((List.range 64).find? (fun e => (Frac.ofInt (10 ^ e)).beq x)).map
    (fun e => Frac.ofInt (e : Int))

/-- Model of `np.linspace` with the default `endpoint=True`:
`start + (stop - start) * i / (num - 1)`. -/
def np_linspace (a b : Frac) (num : Nat) : List Frac :=
  if num = 0 then []
  else if num = 1 then [a]
  else (List.range num).map
    (fun i => a.add (((b.sub a).mul (Frac.ofInt i)).div (Frac.ofInt ((num : Int) - 1))))

/-- Ten to a fractional power, defined on nonnegative integer exponents
(the only exponents `np_linspace` produces here); `none` elsewhere. -/
def pow10_exact (e : Frac) : Option Frac :=
  match e.toInt? with
  | some k => if 0 ≤ k then some (Frac.ofInt (10 ^ k.toNat)) else none
  | none => none

/-- Model of `np.logspace a b num`: ten to the power of each linspace
point. -/
def np_logspace (a b : Frac) (num : Nat) : Option (List Frac) :=
  (np_linspace a b num).mapM pow10_exact

/-- Model of numpy `.astype(int)` on a scalar: truncation toward zero
(`Int.tdiv` is T-division; the model is faithful for the positive
denominators the scripts produce). -/
def np_astype_int (x : Frac) : Int :=
  Int.tdiv x.num x.den

/-! ### Script constants (from the source headers) -/

/-- `n_samples = 100_000` (both scripts). -/
def n_samples : Nat := 100000

/-- `n_features = 20` in the HGBT script. -/
def n_features_hgbt : Nat := 20

/-- `n_features = 50` in the logistic script. -/
def n_features_logistic : Nat := 50

/-- `repeat` entry of `bench_options` in the HGBT script. -/
def repeat_hgbt : Nat := 20

/-- `repeat` entry of `bench_options` in the logistic script. -/
def repeat_logistic : Nat := 10

/-- `early_stopping = [True, False]` (HGBT script). -/
def early_stopping : List Bool := [true, false]

/-- `solvers = ["lbfgs", "newton-cg"]` (logistic script). -/
def solvers : List String := [("lbfgs"), ("newton-cg")]

/-- The sample-size grid
`np.logspace(np.log10(n_samples/1e3), np.log10(n_samples), 4).astype(int)`,
shared by both scripts (`n_samples` is 100000 in both). -/
def Nvals : Option (List Int) := do
  let a ← np_log10 ((Frac.ofInt (n_samples : Int)).div (Frac.ofInt 1000))
  let b ← np_log10 (Frac.ofInt (n_samples : Int))
  let xs ← np_logspace a b 4
  pure (xs.map np_astype_int)

/-- The grid as a plain list (empty if the model were undefined; the
theorems show it is `[100, 1000, 10000, 100000]`). -/
def Nvals_list : List Int := Nvals.getD []

/-! ### The lazy `benchmark_cases` generators

In Python, calling a generator function creates a suspended generator
object without running any of its body; the body runs only as elements
are requested.  A generator is therefore modelled as the (empty) list of
effects performed at creation together with an on-demand element
function: requesting element `i` runs the body up to the `i`-th `yield`,
and the effects of that step are returned next to the element. -/

/-- An observable effect of the scripts around the runner: constructing
an estimator instance, or invoking the deferred fit callable of an
estimator at some repetition. -/
inductive Ev where
  | constructEst (estId : Int)
  | fitCall (estId : Int) (rep : Nat)
deriving DecidableEq

/-- A (modelled) Python generator of Timed Units: effects performed when
the generator function is called, and the on-demand element function,
returning the `i`-th yielded unit together with the effects of
producing it. -/
structure Gen where
  creationEffects : List Ev
  next : Nat → Option (TimedUnit × List Ev)

/-- The HGBT grid in loop order: outer loop over the log-spaced sample
sizes, inner loop over `early_stopping`. -/
def hgbt_grid : List (Int × Bool) :=
  Nvals_list.flatMap (fun N => early_stopping.map (fun es => (N, es)))

/-- The tag set of one HGBT Grid Point:
`OrderedDict(N=N, early_stopping=es)`. -/
def hgbt_tags (N : Int) (es : Bool) : Tags :=
  [(("N"), TagVal.int N), (("early_stopping"), TagVal.bool es)]

/-- Producing the `i`-th element of `benchmark_cases(X, y)` in the HGBT
script: build the tags, construct a fresh `HistGradientBoostingClassifier(**options)`
(with `options = dict()`; the fresh instance gets construction id `i`),
and yield `delayed(clf.fit, tags=tags)(X[:N, :], y[:N])`. -/
def hgbt_case (i : Nat) : Option (TimedUnit × List Ev) :=
  match hgbt_grid.get? i with
  | some (N, es) =>
      let clf : Estimator := ⟨(i : Int), []⟩
      some (⟨hgbt_tags N es, clf, N⟩, [Ev.constructEst clf.id])
  | none => none

/-- `benchmark_cases(X, y)` of the HGBT script as a generator: creation
runs no body code (Python generator semantics), elements come from
`hgbt_case`. -/
def benchmark_cases_hgbt : Gen := ⟨[], hgbt_case⟩

/-- The sequence of Timed Units the HGBT generator yields, materialized
for reasoning about the runner. -/
def hgbt_units : List TimedUnit :=
  (List.range hgbt_grid.length).filterMap (fun i => (hgbt_case i).map Prod.fst)

/-- The logistic grid in loop order: outer loop over the log-spaced
sample sizes, inner loop over the solvers. -/
def logistic_grid : List (Int × String) :=
  Nvals_list.flatMap (fun N => solvers.map (fun s => (N, s)))

/-- The tag set of one logistic Grid Point:
`OrderedDict(N=N, solver=solver)`. -/
def logistic_tags (N : Int) (s : String) : Tags :=
  [(("N"), TagVal.int N), (("solver"), TagVal.str s)]

/-- Producing the `i`-th element of `benchmark_cases(X, y)` in the
logistic script: build the tags, construct a fresh
`LogisticRegression(solver=solver, max_iter=1000)` and yield
`delayed(clf.fit, tags=tags)(X[:N, :], y[:N])`. -/
def logistic_case (i : Nat) : Option (TimedUnit × List Ev) :=
  match logistic_grid.get? i with
  | some (N, s) =>
      let clf : Estimator := ⟨(i : Int), [(("solver"), TagVal.str s), (("max_iter"), TagVal.int 1000)]⟩
      some (⟨logistic_tags N s, clf, N⟩, [Ev.constructEst clf.id])
  | none => none

/-- `benchmark_cases(X, y)` of the logistic script as a generator. -/
def benchmark_cases_logistic : Gen := ⟨[], logistic_case⟩

/-- The sequence of Timed Units the logistic generator yields. -/
def logistic_units : List TimedUnit :=
  (List.range logistic_grid.length).filterMap (fun i => (logistic_case i).map Prod.fst)

/-! ### The Benchmark runner

The runner is the external `neurtu.Benchmark` class; its code is not
part of this repository, so it is modelled from the specification of the
Benchmark Sweep Runner: units are executed in the order yielded by the
input sequence, each one `k` times back to back, and each execution
appends one row carrying the tags of the unit and the repetition
index. -/

/-- Modelled from the spec: `bench(units)` with `repeat = k` — for each
Timed Unit in input order, execute it `k` times sequentially and append
one Measurement row per execution, the tags of the unit merged in.  The
measured metric values are abstracted away. -/
def run (units : List TimedUnit) (k : Nat) : List Measurement :=
  units.flatMap (fun u => (List.range k).map (fun j => ⟨u.tags, j⟩))

/-- Modelled from the spec: the trace of fit invocations one runner call
performs — unit after unit, each repetition invoking the same bound
callable (hence the same estimator instance) of that unit. -/
def runTrace (units : List TimedUnit) (k : Nat) : List Ev :=
  units.flatMap (fun u => (List.range k).map (fun j => Ev.fitCall u.est.id j))

/-- Identifies the failing execution when a deferred callable raises. -/
structure Failure where
  unitIdx : Nat
  rep : Nat
deriving DecidableEq

/-- Modelled from the spec: the repetitions of one unit, executed back
to back; the first raising execution (the oracle `ok i j` is false)
aborts with a `Failure` naming it, otherwise one row per repetition is
produced in order. -/
def runReps (u : TimedUnit) (i : Nat) (ok : Nat → Nat → Bool) :
    List Nat → Except Failure (List Measurement)
  | [] => Except.ok []
  | j :: js =>
      if ok i j then (runReps u i ok js).map (fun rows => ⟨u.tags, j⟩ :: rows)
      else Except.error ⟨i, j⟩

/-- Modelled from the spec: the units, executed in input order starting
at unit index `i`; an abort inside a unit aborts the whole run. -/
def runUnits (k : Nat) (ok : Nat → Nat → Bool) :
    List TimedUnit → Nat → Except Failure (List Measurement)
  | [], _ => Except.ok []
  | u :: us, i => do
      let rows ← runReps u i ok (List.range k)
      let rest ← runUnits k ok us (i + 1)
      Except.ok (rows ++ rest)

/-- Modelled from the spec and from Python exception propagation (the
scripts install no handler around `bench(...)`): if any deferred
callable raises, the run aborts with a `Failure` naming the failing
execution and no Result Table is returned; otherwise the full table in
unit-then-repetition order is returned. -/
def runExc (units : List TimedUnit) (k : Nat) (ok : Nat → Nat → Bool) :
    Except Failure (List Measurement) :=
  runUnits k ok units 0

/-! ### Script-level post-processing of the Result Tables

After each runner call the scripts add constant columns
(`df[...] = value` sets the value on every row), concatenate the binary
and multiclass sub-tables and add the `n_threads` column before the
single `to_parquet` write.  The binary and the multiclass runs use the
same generator grid, so the two sub-tables coincide in the abstraction
that drops metric values. -/

/-- Append one key-value pair to the tag columns of a row. -/
def addTag (key : String) (v : TagVal) (m : Measurement) : Measurement :=
  ⟨m.tags ++ [(key, v)], m.rep⟩

/-- `df[key] = v`: set a constant column on every row of a table. -/
def addCol (df : List Measurement) (key : String) (v : TagVal) : List Measurement :=
  df.map (addTag key v)

/-- The HGBT binary sub-table:
run, then `df["estimator"] = "HistGradientBoostingClassifier"` and
`df["n_classes"] = 2`. -/
def df_hgbt_binary : List Measurement :=
  addCol (addCol (run hgbt_units repeat_hgbt)
      ("estimator") (TagVal.str ("HistGradientBoostingClassifier")))
    ("n_classes") (TagVal.int 2)

/-- The HGBT multiclass sub-table (`n_classes = 10`). -/
def df_hgbt_multi : List Measurement :=
  addCol (addCol (run hgbt_units repeat_hgbt)
      ("estimator") (TagVal.str ("HistGradientBoostingClassifier")))
    ("n_classes") (TagVal.int 10)

/-- The saved HGBT table: `pd.concat` of the two sub-tables, then
`df["n_threads"] = n_threads` where `nth` is the thread count the script
queried from the environment. -/
def hgbt_saved (nth : Int) : List Measurement :=
  addCol (df_hgbt_binary ++ df_hgbt_multi) ("n_threads") (TagVal.int nth)

/-- The logistic binary sub-table. -/
def df_logistic_binary : List Measurement :=
  addCol (addCol (run logistic_units repeat_logistic)
      ("estimator") (TagVal.str ("LogisticRegression")))
    ("n_classes") (TagVal.int 2)

/-- The logistic multiclass sub-table (`n_classes = 10`). -/
def df_logistic_multi : List Measurement :=
  addCol (addCol (run logistic_units repeat_logistic)
      ("estimator") (TagVal.str ("LogisticRegression")))
    ("n_classes") (TagVal.int 10)

/-- The saved logistic table. -/
def logistic_saved (nth : Int) : List Measurement :=
  addCol (df_logistic_binary ++ df_logistic_multi) ("n_threads") (TagVal.int nth)

/-- The column-name list of a row. -/
def rowKeys (m : Measurement) : List String := m.tags.map Prod.fst

/-! ### Straight-line effect traces of the scripts

Two further shallow embeddings of each script body: the sequence of
table operations (for the lifecycle claims) and the sequence of
interactions with the global OpenMP configuration (for the thread-count
claims).  Tables are numbered in creation order: 0 the binary sub-table,
1 the multiclass sub-table, 2 the concatenated table that is saved. -/

/-- A table operation a script performs: a runner call creating a fresh
table, an in-place column assignment mutating a table, a `pd.concat`
creating a fresh table from two inputs, or a `to_parquet` write. -/
inductive TableOp where
  | benchRun (dst : Nat)
  | mutate (t : Nat)
  | concatTables (a b dst : Nat)
  | write (t : Nat)
deriving DecidableEq

/-- The table operations of the HGBT script, in program order:
`bench(...)` into table 0; `df0["estimator"]`, `df0["n_classes"]`;
`bench(...)` into table 1; `df1["estimator"]`, `df1["n_classes"]`;
`pd.concat` into table 2; `df2["n_threads"]`; `df2.to_parquet`. -/
def hgbt_table_ops : List TableOp :=
  [TableOp.benchRun 0, TableOp.mutate 0, TableOp.mutate 0,
   TableOp.benchRun 1, TableOp.mutate 1, TableOp.mutate 1,
   TableOp.concatTables 0 1 2, TableOp.mutate 2, TableOp.write 2]

/-- The table operations of the logistic script, in program order (the
same shape: the extra `time.time()` calls touch no table). -/
def logistic_table_ops : List TableOp :=
  [TableOp.benchRun 0, TableOp.mutate 0, TableOp.mutate 0,
   TableOp.benchRun 1, TableOp.mutate 1, TableOp.mutate 1,
   TableOp.concatTables 0 1 2, TableOp.mutate 2, TableOp.write 2]

/-- Does a table operation create table `t` fresh? -/
def TableOp.creates (t : Nat) : TableOp → Bool
  | TableOp.benchRun dst => dst == t
  | TableOp.concatTables _ _ dst => dst == t
  | _ => false

/-- Is a table operation the write of table `t`? -/
def TableOp.isWriteOf (t : Nat) : TableOp → Bool
  | TableOp.write t2 => t2 == t
  | _ => false

/-- Is a table operation any write? -/
def TableOp.isWrite : TableOp → Bool
  | TableOp.write _ => true
  | _ => false

/-- Is a table operation a mutation of table `t`? -/
def TableOp.isMutateOf (t : Nat) : TableOp → Bool
  | TableOp.mutate t2 => t2 == t
  | _ => false

/-- An interaction of a script with the global OpenMP thread
configuration. -/
inductive EnvOp where
  | queryParallelismEnabled
  | queryNThreads
  | setNThreads
deriving DecidableEq

/-- The OpenMP interactions of the HGBT script, in program order:
`print(_openmp_parallelism_enabled())`,
`print(_openmp_effective_n_threads())`,
`n_threads = _openmp_effective_n_threads()`; nothing else in the script
touches the thread configuration. -/
def hgbt_env_ops : List EnvOp :=
  [EnvOp.queryParallelismEnabled, EnvOp.queryNThreads, EnvOp.queryNThreads]

/-- The OpenMP interactions of the logistic script, in program order
(the same three lines inside the main guard). -/
def logistic_env_ops : List EnvOp :=
  [EnvOp.queryParallelismEnabled, EnvOp.queryNThreads, EnvOp.queryNThreads]

/-- The prefix slice `X[:N, :]` (respectively `y[:N]`) of a dataset with
rows `X`: the first `N` rows. -/
def sliceRows (X : List (List Frac)) (N : Nat) : List (List Frac) :=
  X.take N

/-- The full tag-and-column set of one row of the saved HGBT table:
grid tags, then the `estimator`, `n_classes` and `n_threads` columns in
the order the script adds them. -/
def hgbt_full_tags (N : Int) (es : Bool) (c nth : Int) : Tags :=
  hgbt_tags N es ++ [(("estimator"), TagVal.str ("HistGradientBoostingClassifier"))]
    ++ [(("n_classes"), TagVal.int c)] ++ [(("n_threads"), TagVal.int nth)]

/-- The full tag-and-column set of one row of the saved logistic
table. -/
def logistic_full_tags (N : Int) (s : String) (c nth : Int) : Tags :=
  logistic_tags N s ++ [(("estimator"), TagVal.str ("LogisticRegression"))]
    ++ [(("n_classes"), TagVal.int c)] ++ [(("n_threads"), TagVal.int nth)]

/-! ### Helper lemmas -/

/-- Position `i * k + j` of a flatMap of `k`-element blocks holds the
`j`-th entry of block `i`. -/
theorem flatMap_range_getElem? {α β : Type} (f : α → Nat → β) (k : Nat) :
    ∀ (l : List α) (i j : Nat), i < l.length → j < k →
      (l.flatMap (fun u => (List.range k).map (f u)))[i * k + j]? = (l[i]?).map (fun u => f u j) := by
  intro l
  induction l with
  | nil => intro i j hi hj; simp at hi
  | cons u us ih =>
      intro i j hi hj
      cases i with
      | zero =>
          simp only [List.flatMap_cons, Nat.zero_mul, Nat.zero_add]
          rw [List.getElem?_append_left (by simpa using hj)]
          simp [List.getElem?_range hj]
      | succ i =>
          have e : (i + 1) * k + j = k + (i * k + j) := by ring
          rw [e]
          simp only [List.flatMap_cons]
          rw [List.getElem?_append_right (by simp)]
          simpa using ih i j (by simpa using hi) hj

/-- A flatMap of `k`-element blocks over `l` has `l.length * k`
entries. -/
theorem flatMap_range_length {α β : Type} (f : α → Nat → β) (k : Nat) (l : List α) :
    (l.flatMap (fun u => (List.range k).map (f u))).length = l.length * k := by
  induction l with
  | nil => simp
  | cons u us ih => simp [List.flatMap_cons, ih, Nat.succ_mul, Nat.add_comm]

/-- Two lists that each end in one extra element are equal iff the
fronts and the last elements are. -/
theorem append_singleton_inj {α : Type _} {xs ys : List α} {a b : α} :
    xs ++ [a] = ys ++ [b] ↔ xs = ys ∧ a = b := by
  constructor
  · intro h
    have h2 := congrArg List.reverse h
    simp only [List.reverse_append, List.reverse_cons, List.reverse_nil, List.nil_append,
      List.singleton_append, List.cons.injEq] at h2
    exact ⟨by simpa using congrArg List.reverse h2.2, h2.1⟩
  · rintro ⟨rfl, rfl⟩
    rfl

/-- Adding a column appends its key to the key list of every row. -/
theorem rowKeys_addTag (key : String) (v : TagVal) (m : Measurement) :
    rowKeys (addTag key v m) = rowKeys m ++ [key] := by
  simp [rowKeys, addTag]

/-- Filtering an extended table for tags that end in the added column
counts exactly the rows whose original tags match the front. -/
theorem filter_addCol_eq (df : List Measurement) (key : String) (v : TagVal) (t : Tags) :
    ((addCol df key v).filter (fun m => decide (m.tags = t ++ [(key, v)]))).length =
      (df.filter (fun m => decide (m.tags = t))).length := by
  induction df with
  | nil => rfl
  | cons r rs ih =>
      simp only [addCol, List.map_cons, List.filter_cons, addTag] at *
      by_cases h : r.tags = t
      · simp [h, ih]
      · simp [h, ih, append_singleton_inj]

/-- Filtering an extended table for tags that end in a different value
of the added column matches nothing. -/
theorem filter_addCol_ne (df : List Measurement) (key : String) (v v2 : TagVal) (t : Tags)
    (h : v ≠ v2) :
    ((addCol df key v).filter (fun m => decide (m.tags = t ++ [(key, v2)]))).length = 0 := by
  induction df with
  | nil => rfl
  | cons r rs ih =>
      simp only [addCol, List.map_cons, List.filter_cons, addTag] at *
      simp [append_singleton_inj, h, ih]

/-- Counting rows of a saved table (binary and multiclass sub-tables of
a common base, extra columns as the scripts add them) by a full tag
set: the count equals the matching count in the base table. -/
theorem saved_count (base : List Measurement) (estName : String) (k : Nat) (t0 : Tags)
    (nth : Int) (c : Int) (hc : c = 2 ∨ c = 10)
    (hbase : (base.filter (fun m => decide (m.tags = t0))).length = k) :
    ((addCol
        (addCol (addCol base ("estimator") (TagVal.str estName)) ("n_classes") (TagVal.int 2)
          ++ addCol (addCol base ("estimator") (TagVal.str estName)) ("n_classes") (TagVal.int 10))
        ("n_threads") (TagVal.int nth)).filter
      (fun m => decide (m.tags =
        t0 ++ [(("estimator"), TagVal.str estName)] ++ [(("n_classes"), TagVal.int c)]
          ++ [(("n_threads"), TagVal.int nth)]))).length = k := by
  rw [filter_addCol_eq, List.filter_append, List.length_append]
  rcases hc with rfl | rfl
  · rw [filter_addCol_eq, filter_addCol_eq,
      filter_addCol_ne _ _ _ _ _ (show TagVal.int 10 ≠ TagVal.int 2 by decide), hbase]
    omega
  · rw [filter_addCol_ne _ _ _ _ _ (show TagVal.int 2 ≠ TagVal.int 10 by decide),
      filter_addCol_eq, filter_addCol_eq, hbase]
    omega

/-- Every row of the raw HGBT runner table matches its Grid Point:
the count per grid tag set is the repeat count. -/
theorem hgbt_base_count : ∀ p ∈ hgbt_grid,
    ((run hgbt_units repeat_hgbt).filter
      (fun m => decide (m.tags = hgbt_tags p.1 p.2))).length = repeat_hgbt := by
  decide

/-- Logistic analog of `hgbt_base_count`. -/
theorem logistic_base_count : ∀ p ∈ logistic_grid,
    ((run logistic_units repeat_logistic).filter
      (fun m => decide (m.tags = logistic_tags p.1 p.2))).length = repeat_logistic := by
  decide

/-- Every raw HGBT row has the two grid tag keys. -/
theorem hgbt_base_keys : ∀ m ∈ run hgbt_units repeat_hgbt,
    rowKeys m = [("N"), ("early_stopping")] := by
  decide

/-- Every raw logistic row has the two grid tag keys. -/
theorem logistic_base_keys : ∀ m ∈ run logistic_units repeat_logistic,
    rowKeys m = [("N"), ("solver")] := by
  decide

/-- Executing the repetitions of one unit either yields one row per
repetition in order, or aborts at the first repetition whose callable
raises. -/
theorem runReps_cases (u : TimedUnit) (i : Nat) (ok : Nat → Nat → Bool) :
    ∀ js : List Nat,
      runReps u i ok js = Except.ok (js.map (fun j => (⟨u.tags, j⟩ : Measurement)))
      ∨ ∃ j ∈ js, ok i j = false ∧ runReps u i ok js = Except.error ⟨i, j⟩ := by
  intro js
  induction js with
  | nil => left; rfl
  | cons j js ih =>
      by_cases h : ok i j = true
      · rcases ih with hok | ⟨j2, hj2, hfalse, herr⟩
        · left; simp [runReps, h, hok, Except.map]
        · right; exact ⟨j2, by simp [hj2], hfalse, by simp [runReps, h, herr, Except.map]⟩
      · right
        refine ⟨j, by simp, by simpa using h, ?_⟩
        simp [runReps, h]

/-- Executing a unit sequence either yields the full table or aborts
with a failure that names a unit and repetition whose callable
raised. -/
theorem runUnits_cases (k : Nat) (ok : Nat → Nat → Bool) :
    ∀ (us : List TimedUnit) (i : Nat),
      runUnits k ok us i =
        Except.ok (us.flatMap (fun u => (List.range k).map (fun j => (⟨u.tags, j⟩ : Measurement))))
      ∨ ∃ f : Failure, runUnits k ok us i = Except.error f ∧ i ≤ f.unitIdx ∧
          f.unitIdx < i + us.length ∧ f.rep < k ∧ ok f.unitIdx f.rep = false := by
  intro us
  induction us with
  | nil => intro i; left; rfl
  | cons u us ih =>
      intro i
      rcases runReps_cases u i ok (List.range k) with hok | ⟨j, hj, hfalse, herr⟩
      · rcases ih (i + 1) with hok2 | ⟨f, herr2, h1, h2, h3, h4⟩
        · left
          simp only [runUnits, hok, hok2]
          rfl
        · right
          refine ⟨f, ?_, by omega, by simp; omega, h3, h4⟩
          simp only [runUnits, hok, herr2]
          rfl
      · right
        have hjk : j < k := List.mem_range.1 hj
        refine ⟨⟨i, j⟩, ?_, le_refl _, by simp, hjk, hfalse⟩
        simp only [runUnits, herr]
        rfl

/-- A prefix slice of positive size within the dataset bounds has
exactly that many rows and is nonempty. -/
theorem slice_spec (X : List (List Frac)) (n : Nat) (hX : X.length = n_samples)
    (h1 : 0 < n) (h2 : n ≤ n_samples) :
    (sliceRows X n).length = n ∧ sliceRows X n ≠ [] := by
  have hl : (sliceRows X n).length = n := by
    simp only [sliceRows, List.length_take, hX]
    omega
  refine ⟨hl, ?_⟩
  intro hnil
  rw [hnil] at hl
  simp at hl
  omega

/-! ### The claims -/

/-- C1: for every benchmark run with `repeat = k` (20 in the HGBT
script, 10 in the logistic script), the Result Table returned by the
runner contains exactly `k` Measurement rows per Grid Point yielded by
`benchmark_cases`. -/
theorem C1_rows_per_grid_point :
    (∀ u ∈ hgbt_units,
      ((run hgbt_units repeat_hgbt).filter (fun m => decide (m.tags = u.tags))).length = repeat_hgbt) ∧
    (∀ u ∈ logistic_units,
      ((run logistic_units repeat_logistic).filter (fun m => decide (m.tags = u.tags))).length = repeat_logistic) := by
  decide

/-- Witness for C1 at the first HGBT Grid Point. -/
theorem C1_witness :
    (⟨hgbt_tags 100 true, ⟨0, []⟩, 100⟩ : TimedUnit) ∈ hgbt_units ∧
    ((run hgbt_units repeat_hgbt).filter
        (fun m => decide (m.tags = (⟨hgbt_tags 100 true, ⟨0, []⟩, 100⟩ : TimedUnit).tags))).length = repeat_hgbt :=
  ⟨by decide, C1_rows_per_grid_point.1 _ (by decide)⟩

/-- C2: for every Grid Point and every repetition, the resulting
Measurement row carries that Grid Point tag set unchanged — the tags
bound into the Timed Unit (`N` and `early_stopping` in the HGBT script,
`N` and `solver` in the logistic script). -/
theorem C2_tags_unchanged :
    (∀ i j (hi : i < hgbt_grid.length), j < repeat_hgbt →
      (run hgbt_units repeat_hgbt)[i * repeat_hgbt + j]? =
        some ⟨hgbt_tags (hgbt_grid.get ⟨i, hi⟩).1 (hgbt_grid.get ⟨i, hi⟩).2, j⟩) ∧
    (∀ i j (hi : i < logistic_grid.length), j < repeat_logistic →
      (run logistic_units repeat_logistic)[i * repeat_logistic + j]? =
        some ⟨logistic_tags (logistic_grid.get ⟨i, hi⟩).1 (logistic_grid.get ⟨i, hi⟩).2, j⟩) := by
  constructor
  · intro i j hi hj
    have hlen : hgbt_units.length = hgbt_grid.length := by decide
    have h1 : (run hgbt_units repeat_hgbt)[i * repeat_hgbt + j]? =
        (hgbt_units[i]?).map (fun u => (⟨u.tags, j⟩ : Measurement)) :=
      flatMap_range_getElem? _ _ _ i j (by omega) hj
    have h2 : ∀ i2 (hi2 : i2 < hgbt_grid.length),
        hgbt_units[i2]? = some ⟨hgbt_tags (hgbt_grid.get ⟨i2, hi2⟩).1 (hgbt_grid.get ⟨i2, hi2⟩).2,
          ⟨(i2 : Int), []⟩, (hgbt_grid.get ⟨i2, hi2⟩).1⟩ := by decide
    rw [h1, h2 i hi]
    rfl
  · intro i j hi hj
    have hlen : logistic_units.length = logistic_grid.length := by decide
    have h1 : (run logistic_units repeat_logistic)[i * repeat_logistic + j]? =
        (logistic_units[i]?).map (fun u => (⟨u.tags, j⟩ : Measurement)) :=
      flatMap_range_getElem? _ _ _ i j (by omega) hj
    have h2 : ∀ i2 (hi2 : i2 < logistic_grid.length),
        logistic_units[i2]? = some ⟨logistic_tags (logistic_grid.get ⟨i2, hi2⟩).1 (logistic_grid.get ⟨i2, hi2⟩).2,
          ⟨(i2 : Int), [(("solver"), TagVal.str (logistic_grid.get ⟨i2, hi2⟩).2), (("max_iter"), TagVal.int 1000)]⟩,
          (logistic_grid.get ⟨i2, hi2⟩).1⟩ := by decide
    rw [h1, h2 i hi]
    rfl

/-- Witness for C2 at Grid Point 0, repetition 0 of the HGBT run. -/
theorem C2_witness :
    0 < hgbt_grid.length ∧ 0 < repeat_hgbt ∧
    (run hgbt_units repeat_hgbt)[0 * repeat_hgbt + 0]? =
      some ⟨hgbt_tags (hgbt_grid.get ⟨0, by decide⟩).1 (hgbt_grid.get ⟨0, by decide⟩).2, 0⟩ :=
  ⟨by decide, by decide, C2_tags_unchanged.1 0 0 (by decide) (by decide)⟩

/-- C3: rows appear in unit-then-repetition order — the units occur in
exactly the order yielded by `benchmark_cases` (outer loop over the four
log-spaced sample sizes, inner loop over the variant), and within each
unit the repetition index increases strictly from 0: the row at position
`i * k + j` belongs to unit `i` and has repetition index `j`. -/
theorem C3_row_order :
    hgbt_grid = [(100, true), (100, false), (1000, true), (1000, false),
                 (10000, true), (10000, false), (100000, true), (100000, false)] ∧
    logistic_grid = [(100, ("lbfgs")), (100, ("newton-cg")), (1000, ("lbfgs")), (1000, ("newton-cg")),
                     (10000, ("lbfgs")), (10000, ("newton-cg")), (100000, ("lbfgs")), (100000, ("newton-cg"))] ∧
    (run hgbt_units repeat_hgbt).length = hgbt_units.length * repeat_hgbt ∧
    (run logistic_units repeat_logistic).length = logistic_units.length * repeat_logistic ∧
    (∀ i j, i < hgbt_units.length → j < repeat_hgbt →
      (run hgbt_units repeat_hgbt)[i * repeat_hgbt + j]? =
        (hgbt_units[i]?).map (fun u => (⟨u.tags, j⟩ : Measurement))) ∧
    (∀ i j, i < logistic_units.length → j < repeat_logistic →
      (run logistic_units repeat_logistic)[i * repeat_logistic + j]? =
        (logistic_units[i]?).map (fun u => (⟨u.tags, j⟩ : Measurement))) := by
  refine ⟨by decide, by decide, flatMap_range_length _ _ _, flatMap_range_length _ _ _, ?_, ?_⟩
  · intro i j hi hj; exact flatMap_range_getElem? _ _ _ i j hi hj
  · intro i j hi hj; exact flatMap_range_getElem? _ _ _ i j hi hj

/-- Witness for C3 at unit 0, repetition 0 of the HGBT run. -/
theorem C3_witness :
    0 < hgbt_units.length ∧ 0 < repeat_hgbt ∧
    (run hgbt_units repeat_hgbt)[0 * repeat_hgbt + 0]? =
      (hgbt_units[0]?).map (fun u => (⟨u.tags, 0⟩ : Measurement)) :=
  ⟨by decide, by decide, C3_row_order.2.2.2.2.1 0 0 (by decide) (by decide)⟩

/-- C4: if a callable raises during a run, the (spec-modelled) runner
aborts the whole run with a failure naming the failing execution;
otherwise the complete table is returned.  In no execution does the run
succeed with a failed unit silently absent from the Result Table. -/
theorem C4_no_silent_drop :
    ∀ (units : List TimedUnit) (k : Nat) (ok : Nat → Nat → Bool),
      runExc units k ok = Except.ok (run units k)
      ∨ ∃ f : Failure, runExc units k ok = Except.error f ∧ f.unitIdx < units.length ∧
          f.rep < k ∧ ok f.unitIdx f.rep = false := by
  intro units k ok
  rcases runUnits_cases k ok units 0 with h | ⟨f, h1, h2, h3, h4, h5⟩
  · left; exact h
  · right; exact ⟨f, h1, by simpa using h3, h4, h5⟩

/-- C5: within one saved Result Table every row has the identical
column-key set (grid tag keys, then `estimator`, `n_classes`,
`n_threads`), and the repetition count is uniform: every Grid Point of
either sub-table contributes exactly `repeat` rows. -/
theorem C5_uniform_shape :
    (∀ nth : Int, ∀ r ∈ hgbt_saved nth,
      rowKeys r = [("N"), ("early_stopping"), ("estimator"), ("n_classes"), ("n_threads")]) ∧
    (∀ nth : Int, ∀ r ∈ logistic_saved nth,
      rowKeys r = [("N"), ("solver"), ("estimator"), ("n_classes"), ("n_threads")]) ∧
    (∀ nth : Int, ∀ p ∈ hgbt_grid, ∀ c ∈ ([2, 10] : List Int),
      ((hgbt_saved nth).filter
        (fun m => decide (m.tags = hgbt_full_tags p.1 p.2 c nth))).length = repeat_hgbt) ∧
    (∀ nth : Int, ∀ p ∈ logistic_grid, ∀ c ∈ ([2, 10] : List Int),
      ((logistic_saved nth).filter
        (fun m => decide (m.tags = logistic_full_tags p.1 p.2 c nth))).length = repeat_logistic) := by
  refine ⟨?_, ?_, ?_, ?_⟩
  · intro nth r hr
    simp only [hgbt_saved, addCol] at hr
    obtain ⟨r1, hr1, rfl⟩ := List.mem_map.1 hr
    rcases List.mem_append.1 hr1 with h | h <;>
      · simp only [df_hgbt_binary, df_hgbt_multi, addCol] at h
        obtain ⟨r2, hr2, rfl⟩ := List.mem_map.1 h
        obtain ⟨r3, hr3, rfl⟩ := List.mem_map.1 hr2
        have hb := hgbt_base_keys r3 hr3
        simp [rowKeys_addTag, hb]
  · intro nth r hr
    simp only [logistic_saved, addCol] at hr
    obtain ⟨r1, hr1, rfl⟩ := List.mem_map.1 hr
    rcases List.mem_append.1 hr1 with h | h <;>
      · simp only [df_logistic_binary, df_logistic_multi, addCol] at h
        obtain ⟨r2, hr2, rfl⟩ := List.mem_map.1 h
        obtain ⟨r3, hr3, rfl⟩ := List.mem_map.1 hr2
        have hb := logistic_base_keys r3 hr3
        simp [rowKeys_addTag, hb]
  · intro nth p hp c hc
    exact saved_count (run hgbt_units repeat_hgbt) ("HistGradientBoostingClassifier")
      repeat_hgbt (hgbt_tags p.1 p.2) nth c (by simpa using hc) (hgbt_base_count p hp)
  · intro nth p hp c hc
    exact saved_count (run logistic_units repeat_logistic) ("LogisticRegression")
      repeat_logistic (logistic_tags p.1 p.2) nth c (by simpa using hc) (logistic_base_count p hp)

/-- Witness for C5 at the first HGBT Grid Point of the binary sub-table
with thread count 4. -/
theorem C5_witness :
    (100, true) ∈ hgbt_grid ∧ (2 : Int) ∈ ([2, 10] : List Int) ∧
    ((hgbt_saved 4).filter
      (fun m => decide (m.tags = hgbt_full_tags 100 true 2 4))).length = repeat_hgbt :=
  ⟨by decide, by decide, C5_uniform_shape.2.2.1 4 (100, true) (by decide) 2 (by decide)⟩

/-- C6: `benchmark_cases(X, y)` is lazy — creating the generator
performs no estimator construction and no fit invocation, and the
estimator of the `i`-th Grid Point is constructed exactly when the
`i`-th element is requested (its construction is the only effect of that
step). -/
theorem C6_lazy_generator :
    benchmark_cases_hgbt.creationEffects = [] ∧
    benchmark_cases_logistic.creationEffects = [] ∧
    (∀ i u evs, benchmark_cases_hgbt.next i = some (u, evs) → evs = [Ev.constructEst u.est.id]) ∧
    (∀ i u evs, benchmark_cases_logistic.next i = some (u, evs) → evs = [Ev.constructEst u.est.id]) := by
  refine ⟨rfl, rfl, ?_, ?_⟩
  · intro i u evs h
    simp only [benchmark_cases_hgbt] at h
    unfold hgbt_case at h
    cases hq : hgbt_grid.get? i with
    | none => rw [hq] at h; cases h
    | some p =>
        obtain ⟨N, es⟩ := p
        rw [hq] at h
        simp only [Option.some.injEq, Prod.mk.injEq] at h
        obtain ⟨rfl, rfl⟩ := h
        rfl
  · intro i u evs h
    simp only [benchmark_cases_logistic] at h
    unfold logistic_case at h
    cases hq : logistic_grid.get? i with
    | none => rw [hq] at h; cases h
    | some p =>
        obtain ⟨N, s⟩ := p
        rw [hq] at h
        simp only [Option.some.injEq, Prod.mk.injEq] at h
        obtain ⟨rfl, rfl⟩ := h
        rfl

/-- Witness for C6 at element 0 of the HGBT generator. -/
theorem C6_witness :
    benchmark_cases_hgbt.next 0 =
      some (⟨hgbt_tags 100 true, ⟨0, []⟩, 100⟩, [Ev.constructEst 0]) ∧
    ([Ev.constructEst 0] : List Ev) =
      [Ev.constructEst (⟨(0 : Int), ([] : Tags)⟩ : Estimator).id] :=
  ⟨by decide, C6_lazy_generator.2.2.1 0 ⟨hgbt_tags 100 true, ⟨0, []⟩, 100⟩ [Ev.constructEst 0] (by decide)⟩

/-- C7: in each script the saved Result Table is created fresh (each
table id is created exactly once), written exactly once (the single
`to_parquet` is the only write), and never mutated after the write (the
write is the last table operation of the script). -/
theorem C7_write_once :
    hgbt_table_ops.filter TableOp.isWrite = [TableOp.write 2] ∧
    logistic_table_ops.filter TableOp.isWrite = [TableOp.write 2] ∧
    hgbt_table_ops.getLast? = some (TableOp.write 2) ∧
    logistic_table_ops.getLast? = some (TableOp.write 2) ∧
    (([0, 1, 2] : List Nat).map
      (fun t => (hgbt_table_ops.filter (TableOp.creates t)).length)) = [1, 1, 1] ∧
    (([0, 1, 2] : List Nat).map
      (fun t => (logistic_table_ops.filter (TableOp.creates t)).length)) = [1, 1, 1] := by
  decide

/-- C8 counterexample: the HGBT script does not query the OpenMP
effective thread count exactly once — the query appears twice (once
printed, once stored), so the claim as stated is false. -/
theorem C8_counterexample :
    ¬ ((hgbt_env_ops.filter (fun op => decide (op = EnvOp.queryNThreads))).length = 1) := by
  decide

/-- C8 (amended): each script queries the OpenMP effective thread count
twice — once to print it and once to store it — records the stored value
as the `n_threads` column of every saved row, and never mutates the
thread-pool configuration anywhere in the run. -/
theorem C8_thread_count_read_only :
    (hgbt_env_ops.filter (fun op => decide (op = EnvOp.queryNThreads))).length = 2 ∧
    (logistic_env_ops.filter (fun op => decide (op = EnvOp.queryNThreads))).length = 2 ∧
    (hgbt_env_ops.filter (fun op => decide (op = EnvOp.setNThreads))).length = 0 ∧
    (logistic_env_ops.filter (fun op => decide (op = EnvOp.setNThreads))).length = 0 ∧
    (∀ nth : Int, ∀ r ∈ hgbt_saved nth, ((("n_threads"), TagVal.int nth)) ∈ r.tags) ∧
    (∀ nth : Int, ∀ r ∈ logistic_saved nth, ((("n_threads"), TagVal.int nth)) ∈ r.tags) := by
  refine ⟨by decide, by decide, by decide, by decide, ?_, ?_⟩
  · intro nth r hr
    simp only [hgbt_saved, addCol] at hr
    obtain ⟨r0, h0, rfl⟩ := List.mem_map.1 hr
    simp [addTag]
  · intro nth r hr
    simp only [logistic_saved, addCol] at hr
    obtain ⟨r0, h0, rfl⟩ := List.mem_map.1 hr
    simp [addTag]

/-- Witness for C8 at thread count 4 and the first row of the saved
HGBT table. -/
theorem C8_witness :
    (⟨hgbt_full_tags 100 true 2 4, 0⟩ : Measurement) ∈ hgbt_saved 4 ∧
    ((("n_threads"), TagVal.int 4)) ∈ (⟨hgbt_full_tags 100 true 2 4, 0⟩ : Measurement).tags :=
  ⟨by decide, C8_thread_count_read_only.2.2.2.2.1 4 _ (by decide)⟩

/-- C9: the sample grid evaluates to `[100, 1000, 10000, 100000]`;
every sample count `N` bound into a Timed Unit satisfies
`1 ≤ N ≤ n_samples`, so `X[:N, :]` and `y[:N]` are valid nonempty prefix
selections of the generated dataset. -/
theorem C9_N_bounds :
    Nvals = some [100, 1000, 10000, 100000] ∧
    (∀ u ∈ hgbt_units, 1 ≤ u.argN ∧ u.argN ≤ (n_samples : Int)) ∧
    (∀ u ∈ logistic_units, 1 ≤ u.argN ∧ u.argN ≤ (n_samples : Int)) ∧
    (∀ N ∈ Nvals_list, 1 ≤ N ∧ N ≤ (n_samples : Int) ∧
      ∀ (X : List (List Frac)), X.length = n_samples →
        (sliceRows X N.toNat).length = N.toNat ∧ sliceRows X N.toNat ≠ []) := by
  refine ⟨by decide, by decide, by decide, ?_⟩
  intro N hN
  have hvals : Nvals_list = [100, 1000, 10000, 100000] := by decide
  rw [hvals] at hN
  fin_cases hN <;>
    exact ⟨by decide, by decide, fun X hX => slice_spec X _ hX (by decide) (by decide)⟩

/-- Witness for C9 at `N = 100` on a dataset of `n_samples` rows. -/
theorem C9_witness :
    (100 : Int) ∈ Nvals_list ∧
    (List.replicate n_samples ([] : List Frac)).length = n_samples ∧
    (sliceRows (List.replicate n_samples []) (100 : Int).toNat).length = (100 : Int).toNat :=
  ⟨by decide, by simp,
    ((C9_N_bounds.2.2.2 100 (by decide)).2.2 (List.replicate n_samples []) (by simp)).1⟩

/-- C10: every Grid Point receives its own freshly constructed
estimator (the construction identities of the yielded units are all
distinct), and all repetitions of one Grid Point invoke the same single
instance: the trace entry at position `i * k + j` is a fit call of unit
`i`-s estimator, independent of `j`. -/
theorem C10_fresh_estimators :
    (hgbt_units.map (fun u => u.est.id)).Nodup ∧
    (logistic_units.map (fun u => u.est.id)).Nodup ∧
    (∀ i j, i < hgbt_units.length → j < repeat_hgbt →
      (runTrace hgbt_units repeat_hgbt)[i * repeat_hgbt + j]? =
        (hgbt_units[i]?).map (fun u => Ev.fitCall u.est.id j)) ∧
    (∀ i j, i < logistic_units.length → j < repeat_logistic →
      (runTrace logistic_units repeat_logistic)[i * repeat_logistic + j]? =
        (logistic_units[i]?).map (fun u => Ev.fitCall u.est.id j)) := by
  refine ⟨by decide, by decide, ?_, ?_⟩
  · intro i j hi hj; exact flatMap_range_getElem? _ _ _ i j hi hj
  · intro i j hi hj; exact flatMap_range_getElem? _ _ _ i j hi hj

/-- Witness for C10 at unit 0, repetition 0 of the HGBT trace. -/
theorem C10_witness :
    0 < hgbt_units.length ∧ 0 < repeat_hgbt ∧
    (runTrace hgbt_units repeat_hgbt)[0 * repeat_hgbt + 0]? =
      (hgbt_units[0]?).map (fun u => Ev.fitCall u.est.id 0) :=
  ⟨by decide, by decide, C10_fresh_estimators.2.2.1 0 0 (by decide) (by decide)⟩

end Bench
